import Mathlib

/-!
Verification of the Cluster coordination core (src/node/Cluster.cpp) against its
natural-language specification.

The C++ source is shallowly embedded: pure byte manipulation becomes functions on
List Nat (each element a byte value), stateful methods become explicit
state-passing functions on a Cluster structure, and the external collaborators
(node clock, topology, multicast oracle, packet switch, secure randomness) become
oracle parameters.  Machine integers are Nat with explicit modular arithmetic
where overflow matters (uint64 subtraction is usub64 below).

Code of the repository that is not under src/ is modelled from the spec where the
claims need it: the Salsa20/12 stream cipher and Poly1305 one-time MAC (spec 4.1
describes them as a keystream XOR cipher and a 16-byte one-time MAC keyed by the
first 32 keystream bytes) are abstract function parameters ksf and macf, the
serialization codecs for identities and socket addresses (spec 6: opaque
length-prefixed byte strings) are simple executable codecs, and the constants and
message-type values from Cluster.hpp come from spec 4.2 and 4.5.
-/

namespace ZTCluster

/-- Modelled from the spec: ZT_CLUSTER_MAX_MEMBERS (Cluster.hpp is not in src/);
spec 4.5 fixes it to 128. -/
def ZT_CLUSTER_MAX_MEMBERS : Nat := 128

/-- Modelled from the spec: ZT_CLUSTER_MAX_MESSAGE_LENGTH (Cluster.hpp is not in
src/); spec 4.1 fixes MAX_MESSAGE_LEN to 16384, matching the literal 16384 used
by sendViaCluster in Cluster.cpp. -/
def ZT_CLUSTER_MAX_MESSAGE_LENGTH : Nat := 16384

/-- Modelled from the spec: ZT_CLUSTER_TIMEOUT = 30000 ms (spec 4.5). -/
def ZT_CLUSTER_TIMEOUT : Nat := 30000

/-- Modelled from the spec: ZT_CLUSTER_HAVE_PEER_ANNOUNCE_PERIOD = 60000 ms
(spec 4.5). -/
def ZT_CLUSTER_HAVE_PEER_ANNOUNCE_PERIOD : Nat := 60000

/-- Modelled from the spec: ZT_PEER_ACTIVITY_TIMEOUT = 300000 ms (spec 4.5). -/
def ZT_PEER_ACTIVITY_TIMEOUT : Nat := 300000

/-- Unsigned 64-bit subtraction, as computed by the C++ expressions of the form
now - ts on uint64 operands. -/
def usub64 (a b : Nat) : Nat := (a % 2 ^ 64 + 2 ^ 64 - b % 2 ^ 64) % 2 ^ 64

/-- Big-endian 2-byte encoding of a 16-bit value (Buffer append of uint16). -/
def u16be (n : Nat) : List Nat := [n / 256 % 256, n % 256]

/-- Big-endian 2-byte read at an offset (Buffer template read of uint16). -/
def u16at (l : List Nat) (p : Nat) : Nat := l.getD p 0 * 256 + l.getD (p + 1) 0

/-- Big-endian big-integer read of n bytes at an offset. -/
def beAt (l : List Nat) (p n : Nat) : Nat :=
  match n with
  | 0 => 0
  | k + 1 => beAt l p k * 256 + l.getD (p + k) 0

/-- Big-endian 8-byte read at an offset (Buffer template read of uint64). -/
def u64at (l : List Nat) (p : Nat) : Nat := beAt l p 8

/-- Big-endian 4-byte read of a signed int32 at an offset (two complement). -/
def i32at (l : List Nat) (p : Nat) : Int :=
  let v := beAt l p 4
  if v < 2 ^ 31 then (v : Int) else (v : Int) - 2 ^ 32

/-- Big-endian 5-byte encoding of a 40-bit overlay address (Address.appendTo).
Modelled from the spec: the Address codec is not in src/; spec 4.2 calls it a
5-byte address. -/
def addr5 (a : Nat) : List Nat :=
  [a / 2 ^ 32 % 256, a / 2 ^ 24 % 256, a / 2 ^ 16 % 256, a / 2 ^ 8 % 256, a % 256]

/-- Contiguous n-byte slice starting at an offset (Buffer.field). -/
def listSlice (l : List Nat) (p n : Nat) : List Nat := (l.drop p).take n

/-- XOR a list of bytes with a keystream function, starting at keystream
position i.  This models Salsa20 encrypt12/decrypt12, which XOR the data with
successive keystream bytes. -/
def xorKs (f : Nat → Nat) : Nat → List Nat → List Nat
  | _, [] => []
  | i, b :: t => (b ^^^ f i) :: xorKs f (i + 1) t

/-! ## Framer (Cluster::_flush sealing and the inbound block of
Cluster::handleIncomingStateMessage)

A frame buffer is laid out as 16 bytes IV, 8 bytes MAC slot, then the body
(2 bytes sender id, 2 bytes recipient id, sub-messages).  ksf takes the
one-shot 32-byte key and the 8-byte nonce and gives the keystream byte at a
position; macf takes the one-time poly key and the data and gives the 16-byte
tag. -/

/-- One-shot key: the 32-byte link key with its first 8 bytes XORed with the
first 8 bytes of the buffer (the IV head), Cluster.cpp lines 121-124 and
724-727. -/
def clusterKeytmp (key buf : List Nat) : List Nat :=
  List.zipWith Nat.xor (key.take 8) (buf.take 8) ++ key.drop 8

/-- Cipher nonce: bytes 8..16 of the buffer (the IV tail). -/
def clusterNonce (buf : List Nat) : List Nat := (buf.drop 8).take 8

/-- One-time MAC key: the first 32 keystream bytes (encrypting 32 zero bytes
yields the raw keystream). -/
def clusterPolykey (ksf : List Nat → List Nat → Nat → Nat) (key buf : List Nat) :
    List Nat :=
  (List.range 32).map (ksf (clusterKeytmp key buf) (clusterNonce buf))

/-- Encrypt or decrypt the body (bytes 24..end) of a frame buffer with the
keystream continuing at position 32 (after the 32 poly-key bytes). -/
def streamXorBody (ksf : List Nat → List Nat → Nat → Nat) (key buf : List Nat) :
    List Nat :=
  xorKs (ksf (clusterKeytmp key buf) (clusterNonce buf)) 32 (buf.drop 24)

/-- Sealed frame produced by Cluster::_flush from a queue buffer: the IV is
kept, the 8-byte MAC slot receives the first 8 bytes of the one-time MAC of the
encrypted body, and the body is encrypted in place. -/
def sealQ (ksf : List Nat → List Nat → Nat → Nat)
    (macf : List Nat → List Nat → List Nat) (key q : List Nat) : List Nat :=
  q.take 16 ++ (macf (clusterPolykey ksf key q) (streamXorBody ksf key q)).take 8
    ++ streamXorBody ksf key q

/-- Inbound MAC check and decryption, Cluster.cpp lines 112-144: reject frames
shorter than 24 bytes or longer than the maximum, recompute the one-time MAC
over the ciphertext and compare its first 8 bytes with bytes 16..24, then
decrypt the body. -/
def unsealFrame (ksf : List Nat → List Nat → Nat → Nat)
    (macf : List Nat → List Nat → List Nat) (key msg : List Nat) :
    Option (List Nat) :=
  if msg.length < 24 ∨ msg.length > ZT_CLUSTER_MAX_MESSAGE_LENGTH then none
  else if (macf (clusterPolykey ksf key msg) (msg.drop 24)).take 8 ≠
      (msg.drop 16).take 8 then none
  else some (streamXorBody ksf key msg)

/-- Fresh queue contents after a flush or addMember: random IV, 8 reserved MAC
bytes (uninitialized in the source, modelled as zeros since they are overwritten
at seal time), sender id, recipient id (Cluster.cpp lines 577-583, 747-754). -/
def resetQ (iv : List Nat) (lid mid : Nat) : List Nat :=
  iv ++ List.replicate 8 0 ++ u16be lid ++ u16be mid

/-- Cluster::_flush on a queue: seal and emit the frame when the queue holds
more than the 28 header bytes, then reset the queue with a fresh IV; otherwise
do nothing.  Returns the new queue and the emitted frames. -/
def flushQ (ksf : List Nat → List Nat → Nat → Nat)
    (macf : List Nat → List Nat → List Nat) (key : List Nat) (lid mid : Nat)
    (freshIv : List Nat) (q : List Nat) : List Nat × List (List Nat) :=
  if q.length > 24 + 2 + 2 then (resetQ freshIv lid mid, [sealQ ksf macf key q])
  else (q, [])

/-- Serialized form of one queued sub-message: 2-byte length (payload plus the
type byte), the type byte, then the payload (Cluster.cpp lines 713-715). -/
def encodeSub (m : Nat × List Nat) : List Nat :=
  u16be (m.2.length + 1) ++ m.1 :: m.2

/-- Cluster::_send on a queue: drop over-long sub-messages, auto-flush first if
appending would exceed the maximum frame length, then append the length-prefixed
sub-message.  Returns the new queue and any frame emitted by the auto-flush. -/
def sendQ (ksf : List Nat → List Nat → Nat → Nat)
    (macf : List Nat → List Nat → List Nat) (key : List Nat) (lid mid : Nat)
    (freshIv : List Nat) (q : List Nat) (ty : Nat) (msg : List Nat) :
    List Nat × List (List Nat) :=
  if msg.length + 3 > ZT_CLUSTER_MAX_MESSAGE_LENGTH - (24 + 2 + 2) then (q, [])
  else
    let qf := if q.length + msg.length + 3 > ZT_CLUSTER_MAX_MESSAGE_LENGTH then
        flushQ ksf macf key lid mid freshIv q
      else (q, [])
    (qf.1 ++ encodeSub (ty, msg), qf.2)

/-- Total serialized size of a batch of sub-messages: each contributes its
payload length plus 3 bytes (2-byte length prefix and the type byte). -/
def totalSize (msgs : List (Nat × List Nat)) : Nat :=
  (msgs.map (fun m => m.2.length + 3)).sum

/-- Concatenated serialized form of a batch of sub-messages, in order. -/
def encodeAll : List (Nat × List Nat) → List Nat
  | [] => []
  | m :: t => encodeSub m ++ encodeAll t

/-- A sequence of Cluster::_send calls on one queue, accumulating any frames
emitted by auto-flushes. -/
def sendAll (ksf : List Nat → List Nat → Nat → Nat)
    (macf : List Nat → List Nat → List Nat) (key : List Nat) (lid mid : Nat)
    (freshIv : List Nat) (acc : List Nat × List (List Nat))
    (msgs : List (Nat × List Nat)) : List Nat × List (List Nat) :=
  msgs.foldl
    (fun acc m =>
      ((sendQ ksf macf key lid mid freshIv acc.1 m.1 m.2).1,
        acc.2 ++ (sendQ ksf macf key lid mid freshIv acc.1 m.1 m.2).2))
    acc

/-! ## Data model -/

/-- Modelled from the spec: socket addresses are serialized by a codec outside
src/ and the spec (section 6) says to treat them as opaque length-prefixed byte
strings.  family = 0 is the nil address (the C++ InetAddress is falsy when its
ss_family is 0); the model uses family 4 for AF_INET and 6 for AF_INET6. -/
structure InetAddress where
  family : Nat
  ip : List Nat
  port : Nat
deriving DecidableEq, Repr

/-- The nil socket address. -/
def InetAddress.nil : InetAddress := ⟨0, [], 0⟩

/-- Modelled from the spec: opaque length-prefixed serialization of a socket
address; a nil address serializes to a single zero byte. -/
def InetAddress.serialize (a : InetAddress) : List Nat :=
  if a.family = 0 then [0]
  else a.family :: a.ip.length :: a.ip ++ u16be a.port

/-- Modelled from the spec: deserialize a socket address at an offset, returning
the address and the offset after it, or none when truncated (the C++ codec
throws, which the caller catches). -/
def InetAddress.deserializeAt (l : List Nat) (p : Nat) : Option (InetAddress × Nat) :=
  if p < l.length then
    let fam := l.getD p 0
    if fam = 0 then some (InetAddress.nil, p + 1)
    else
      let n := l.getD (p + 1) 0
      if p + 2 + n + 2 ≤ l.length then
        some (⟨fam, listSlice l (p + 2) n, u16at l (p + 2 + n)⟩, p + 2 + n + 2)
      else none
  else none

/-- Modelled from the spec: an overlay identity, reduced to its 40-bit overlay
address and opaque public key material (the Identity codec is outside src/).
The C++ Identity is falsy when unset; the model uses addr = 0 for that. -/
structure Identity where
  addr : Nat
  material : List Nat
deriving DecidableEq, Repr

/-- Modelled from the spec: opaque length-prefixed serialization of an identity
(public part only, as serialized with includePrivate = false). -/
def Identity.serialize (i : Identity) : List Nat :=
  addr5 i.addr ++ i.material.length :: i.material

/-- Modelled from the spec: deserialize an identity at an offset. -/
def Identity.deserializeAt (l : List Nat) (p : Nat) : Option (Identity × Nat) :=
  if p + 6 ≤ l.length then
    let n := l.getD (p + 5) 0
    if p + 6 + n ≤ l.length then
      some (⟨beAt l p 5, listSlice l (p + 6) n⟩, p + 6 + n)
    else none
  else none

/-- Peer affinity entry: last-update timestamp and owning member id
(struct _PA). -/
structure PA where
  ts : Nat
  mid : Nat
deriving DecidableEq, Repr

/-- Per-member record (struct _Member): link key, send queue, advertised
location, load, advertised physical endpoints, heartbeat timestamps. -/
structure MemberRec where
  key : List Nat
  q : List Nat
  x : Int
  y : Int
  z : Int
  load : Nat
  zeroTierPhysicalEndpoints : List InetAddress
  lastReceivedAliveAnnouncement : Nat
  lastAnnouncedAliveTo : Nat
deriving DecidableEq, Repr

/-- Cluster state: local member id, inbound link key, live member id set,
member records (indexed by id), the peer affinity map (association list keyed
by 40-bit peer address), our location and advertised endpoints, and the
periodic-task timestamps. -/
structure Cluster where
  id : Nat
  key : List Nat
  memberIds : List Nat
  members : Nat → MemberRec
  peerAffinities : List (Nat × PA)
  x : Int
  y : Int
  z : Int
  zeroTierPhysicalEndpoints : List InetAddress
  lastCleanedPeerAffinities : Nat
  lastCheckedPeersForAnnounce : Nat
  lastFlushed : Nat

/-- Externally visible side effects of the cluster core: calls into the
topology, the multicast oracle, the overlay switch, the cluster frame sender
and the raw UDP sender. -/
inductive Event where
  | removePath (peer : Nat) (phys : InetAddress)
  | saveIdentity (ident : Identity)
  | mcAdd (now nwid mac adi addr : Nat)
  | switchSend (dest verb : Nat) (payload : List Nat)
  | sendFrame (memberId : Nat) (frame : List Nat)
  | rawPacket (dest : InetAddress) (payload : List Nat)
deriving Repr

/-- Recognizer for raw-packet events (the putPacket calls of sendViaCluster). -/
def isRawPacketEvent : Event → Bool
  | Event.rawPacket _ _ => true
  | _ => false

/-- Hashtable.get on the affinity map. -/
def paLookup (m : List (Nat × PA)) (a : Nat) : Option PA :=
  match m with
  | [] => none
  | (b, w) :: t => if b = a then some w else paLookup t a

/-- Write-through access to the affinity map (Hashtable bracket operator plus
assignment). -/
def paSet (m : List (Nat × PA)) (a : Nat) (v : PA) : List (Nat × PA) :=
  match m with
  | [] => [(a, v)]
  | (b, w) :: t => if b = a then (a, v) :: t else (b, w) :: paSet t a v

/-- Cluster::_send to one member: append to that member queue, collecting any
auto-flushed frame as a sendFrame event. -/
def clusterSend (ksf : List Nat → List Nat → Nat → Nat)
    (macf : List Nat → List Nat → List Nat) (s : Cluster) (mid ty : Nat)
    (msg : List Nat) (freshIv : List Nat) : Cluster × List Event :=
  let m := s.members mid
  let r := sendQ ksf macf m.key s.id mid freshIv m.q ty msg
  ({ s with members := Function.update s.members mid { m with q := r.1 } },
    r.2.map (Event.sendFrame mid))

/-- Cluster::_flush of one member queue at the cluster level. -/
def clusterFlush (ksf : List Nat → List Nat → Nat → Nat)
    (macf : List Nat → List Nat → List Nat) (s : Cluster) (mid : Nat)
    (freshIv : List Nat) : Cluster × List Event :=
  let m := s.members mid
  let r := flushQ ksf macf m.key s.id mid freshIv m.q
  ({ s with members := Function.update s.members mid { m with q := r.1 } },
    r.2.map (Event.sendFrame mid))

/-! ## Control protocol handler (Cluster::handleIncomingStateMessage)

The topology oracle topo maps an overlay peer address to none when
getPeerNoCache finds no peer, or to the best active IPv4 and IPv6 addresses of
the peer (each possibly nil) as returned by getBestActiveAddresses.  ivgen
supplies the secure-random IVs consumed when queues are re-seeded. -/

/-- Modelled from the spec: STATE_MESSAGE_ALIVE = 1 (spec 4.2; the enum lives in
Cluster.hpp, outside src/). -/
def STATE_MESSAGE_ALIVE : Nat := 1

/-- Modelled from the spec: STATE_MESSAGE_HAVE_PEER = 2 (spec 4.2). -/
def STATE_MESSAGE_HAVE_PEER : Nat := 2

/-- Modelled from the spec: STATE_MESSAGE_MULTICAST_LIKE = 3 (spec 4.2). -/
def STATE_MESSAGE_MULTICAST_LIKE : Nat := 3

/-- Modelled from the spec: STATE_MESSAGE_COM = 4 (spec 4.2). -/
def STATE_MESSAGE_COM : Nat := 4

/-- Modelled from the spec: STATE_MESSAGE_PROXY_UNITE = 5 (spec 4.2). -/
def STATE_MESSAGE_PROXY_UNITE : Nat := 5

/-- Modelled from the spec: STATE_MESSAGE_PROXY_SEND = 6 (spec 4.2). -/
def STATE_MESSAGE_PROXY_SEND : Nat := 6

/-- Modelled from the spec: the RENDEZVOUS packet verb (Packet.hpp is outside
src/; spec 4.2 only names the verb). -/
def VERB_RENDEZVOUS : Nat := 5

/-- Modelled from the spec: AF_INET tag in this embedding. -/
def AF_INET : Nat := 4

/-- Modelled from the spec: AF_INET6 tag in this embedding. -/
def AF_INET6 : Nat := 6

/-- Parse a count-prefixed run of serialized socket addresses for the ALIVE
handler, dropping nil ones (the source pushes then pops such entries).  Returns
none when a deserialize throws; the handler is then modelled as a no-op (the
source catches the exception mid-update; no claim depends on the partially
updated record). -/
def parseInetList (l : List Nat) : Nat → Nat → Option (List InetAddress × Nat)
  | _, 0 => some ([], 0)
  | p, k + 1 =>
    match InetAddress.deserializeAt l p with
    | none => none
    | some (a, p2) =>
      match parseInetList l p2 k with
      | none => none
      | some (as, pe) => some ((if a.family = 0 then as else a :: as), pe)

/-- Strict parse of a count-prefixed run of serialized socket addresses for the
PROXY_UNITE handler (the source keeps nil entries in its array). -/
def parseInetListStrict (l : List Nat) : Nat → Nat → Option (List InetAddress × Nat)
  | p, 0 => some ([], p)
  | p, k + 1 =>
    match InetAddress.deserializeAt l p with
    | none => none
    | some (a, p2) =>
      match parseInetListStrict l p2 k with
      | none => none
      | some (as, pe) => some (a :: as, pe)

/-- STATE_MESSAGE_ALIVE handler (Cluster.cpp lines 180-213): update the sender
advertised location, load, endpoint list and last-received-alive timestamp. -/
def handleAlive (s : Cluster) (fmid now : Nat) (dmsg : List Nat) (p : Nat) :
    Cluster × List Event :=
  if p + 44 ≤ dmsg.length then
    match parseInetList dmsg (p + 44) (dmsg.getD (p + 43) 0) with
    | none => (s, [])
    | some (eps, _) =>
      let m := s.members fmid
      let m2 := { m with x := i32at dmsg (p + 7), y := i32at dmsg (p + 11),
                         z := i32at dmsg (p + 15), load := u64at dmsg (p + 27),
                         zeroTierPhysicalEndpoints := eps,
                         lastReceivedAliveAnnouncement := now }
      ({ s with members := Function.update s.members fmid m2 }, [])
  else (s, [])

/-- STATE_MESSAGE_HAVE_PEER handler (Cluster.cpp lines 215-241): deserialize the
identity and physical address; when the identity is set, ask the topology to
forget any local path to that peer at that address, save the identity, and point
the affinity entry for the peer at the sending member with the current time. -/
def handleHavePeer (topo : Nat → Option (InetAddress × InetAddress))
    (s : Cluster) (fmid now : Nat) (dmsg : List Nat) (p : Nat) :
    Cluster × List Event :=
  match Identity.deserializeAt dmsg p with
  | none => (s, [])
  | some (ident, p2) =>
    match InetAddress.deserializeAt dmsg p2 with
    | none => (s, [])
    | some (phys, _) =>
      if ident.addr ≠ 0 then
        ({ s with peerAffinities := paSet s.peerAffinities ident.addr ⟨now, fmid⟩ },
          (if phys.family ≠ 0 ∧ (topo ident.addr).isSome then
            [Event.removePath ident.addr phys] else []) ++ [Event.saveIdentity ident])
      else (s, [])

/-- STATE_MESSAGE_MULTICAST_LIKE handler (Cluster.cpp lines 243-250): feed the
multicast-subscription oracle. -/
def handleMulticastLike (s : Cluster) (now : Nat) (dmsg : List Nat) (p : Nat) :
    Cluster × List Event :=
  if p + 23 ≤ dmsg.length then
    (s, [Event.mcAdd now (u64at dmsg p) (beAt dmsg (p + 13) 6)
      (beAt dmsg (p + 19) 4) (beAt dmsg (p + 8) 5)])
  else (s, [])

/-- STATE_MESSAGE_PROXY_SEND handler (Cluster.cpp lines 339-347): originate an
overlay packet to the named recipient with the given verb and payload. -/
def handleProxySend (s : Cluster) (dmsg : List Nat) (p : Nat) :
    Cluster × List Event :=
  if p + 8 + u16at dmsg (p + 6) ≤ dmsg.length then
    (s, [Event.switchSend (beAt dmsg p 5) (dmsg.getD (p + 5) 0)
      (listSlice dmsg (p + 8) (u16at dmsg (p + 6)))])
  else (s, [])

/-- Rendezvous payload sent to our own peer (Cluster.cpp lines 294-296 and
310-312 or 321-323): zero flags, the remote peer address, then the chosen
remote port and raw IP. -/
def rendezvousForLocal (remotePeerAddr : Nat) (remote : InetAddress)
    (ipLen : Nat) : List Nat :=
  0 :: addr5 remotePeerAddr ++ u16be remote.port ++ ipLen :: remote.ip

/-- PROXY_SEND body wrapping the rendezvous for the remote peer (Cluster.cpp
lines 298-304 and 314-317 or 325-328). -/
def rendezvousForRemote (remotePeerAddr localPeerAddr : Nat)
    (local_ : InetAddress) (ipLen : Nat) : List Nat :=
  addr5 remotePeerAddr ++ VERB_RENDEZVOUS :: u16be (9 + ipLen) ++ 0 ::
    addr5 localPeerAddr ++ u16be local_.port ++ ipLen :: local_.ip

/-- STATE_MESSAGE_PROXY_UNITE handler (Cluster.cpp lines 262-337): pick the
first IPv4 and IPv6 among the supplied remote paths, fetch the best active
addresses of the local peer, prefer an IPv6 pair over an IPv4 pair, then send a
PROXY_SEND rendezvous back to the originating member (flushing its queue at
once) and a rendezvous packet to the local peer. -/
def handleProxyUnite (ksf : List Nat → List Nat → Nat → Nat)
    (macf : List Nat → List Nat → List Nat)
    (topo : Nat → Option (InetAddress × InetAddress)) (ivgen : Nat → List Nat)
    (s : Cluster) (fmid : Nat) (dmsg : List Nat) (p : Nat) :
    Cluster × List Event :=
  if p + 11 ≤ dmsg.length then
    let localPeerAddress := beAt dmsg p 5
    let remotePeerAddress := beAt dmsg (p + 5) 5
    let n := dmsg.getD (p + 10) 0
    match parseInetListStrict dmsg (p + 11) n with
    | none => (s, [])
    | some (paths, _) =>
      match topo localPeerAddress with
      | none => (s, [])
      | some (bestLocalV4, bestLocalV6) =>
        if n > 0 then
          let bestRemoteV4 := (paths.find? (fun a => a.family == AF_INET)).getD
            InetAddress.nil
          let bestRemoteV6 := (paths.find? (fun a => a.family == AF_INET6)).getD
            InetAddress.nil
          let emit := fun (lcl rmt : InetAddress) (ipLen : Nat) =>
            let r1 := clusterSend ksf macf s fmid STATE_MESSAGE_PROXY_SEND
              (rendezvousForRemote remotePeerAddress localPeerAddress lcl ipLen)
              (ivgen 0)
            let r2 := clusterFlush ksf macf r1.1 fmid (ivgen 1)
            (r2.1, r1.2 ++ r2.2 ++ [Event.switchSend localPeerAddress
              VERB_RENDEZVOUS (rendezvousForLocal remotePeerAddress rmt ipLen)])
          if bestLocalV6.family ≠ 0 ∧ bestRemoteV6.family ≠ 0 then
            emit bestLocalV6 bestRemoteV6 16
          else if bestLocalV4.family ≠ 0 ∧ bestRemoteV4.family ≠ 0 then
            emit bestLocalV4 bestRemoteV4 4
          else (s, [])
        else (s, [])
  else (s, [])

/-- One iteration body of the sub-message switch (Cluster.cpp lines 174-352):
read the type byte and dispatch; unknown types and out-of-bounds reads are
dropped (the source catches the inner exception). -/
def handleSubMessage (ksf : List Nat → List Nat → Nat → Nat)
    (macf : List Nat → List Nat → List Nat)
    (topo : Nat → Option (InetAddress × InetAddress)) (ivgen : Nat → List Nat)
    (s : Cluster) (fmid now : Nat) (dmsg : List Nat) (tp : Nat) :
    Cluster × List Event :=
  if tp < dmsg.length then
    if dmsg.getD tp 0 = STATE_MESSAGE_ALIVE then
      handleAlive s fmid now dmsg (tp + 1)
    else if dmsg.getD tp 0 = STATE_MESSAGE_HAVE_PEER then
      handleHavePeer topo s fmid now dmsg (tp + 1)
    else if dmsg.getD tp 0 = STATE_MESSAGE_MULTICAST_LIKE then
      handleMulticastLike s now dmsg (tp + 1)
    else if dmsg.getD tp 0 = STATE_MESSAGE_PROXY_UNITE then
      handleProxyUnite ksf macf topo ivgen s fmid dmsg (tp + 1)
    else if dmsg.getD tp 0 = STATE_MESSAGE_PROXY_SEND then
      handleProxySend s dmsg (tp + 1)
    else (s, [])
  else (s, [])

/-- Sub-message loop (Cluster.cpp lines 168-355): read the 2-byte length, stop
when the declared end runs past the frame, dispatch the sub-message, and resume
at the declared end. -/
def processSubMessages (ksf : List Nat → List Nat → Nat → Nat)
    (macf : List Nat → List Nat → List Nat)
    (topo : Nat → Option (InetAddress × InetAddress)) (ivgen : Nat → List Nat)
    (s : Cluster) (fmid now : Nat) (dmsg : List Nat) (ptr : Nat) :
    Cluster × List Event :=
  if _h1 : dmsg.length ≤ ptr then (s, [])
  else if _h2 : dmsg.length < ptr + 2 then (s, [])
  else if _h3 : dmsg.length < ptr + 2 + u16at dmsg ptr then (s, [])
  else
    let r1 := handleSubMessage ksf macf topo ivgen s fmid now dmsg (ptr + 2)
    let r2 := processSubMessages ksf macf topo ivgen r1.1 fmid now dmsg
      (ptr + 2 + u16at dmsg ptr)
    (r2.1, r1.2 ++ r2.2)
termination_by dmsg.length - ptr
decreasing_by omega

/-- Cluster::handleIncomingStateMessage (lines 112-361): unseal the frame, read
and check the sender and recipient ids, require the sender to be a known member,
then process the batched sub-messages. -/
def handleIncomingStateMessage (ksf : List Nat → List Nat → Nat → Nat)
    (macf : List Nat → List Nat → List Nat)
    (topo : Nat → Option (InetAddress × InetAddress)) (ivgen : Nat → List Nat)
    (s : Cluster) (now : Nat) (msg : List Nat) : Cluster × List Event :=
  match unsealFrame ksf macf s.key msg with
  | none => (s, [])
  | some dmsg =>
    if dmsg.length < 4 then (s, [])
    else if u16at dmsg 0 = s.id then (s, [])
    else if u16at dmsg 2 ≠ s.id then (s, [])
    else if u16at dmsg 0 ∉ s.memberIds then (s, [])
    else processSubMessages ksf macf topo ivgen s (u16at dmsg 0) now dmsg 4

/-! ## sendViaCluster, replicateHavePeer, findBetterEndpoint, periodic GC -/

/-- PROXY_UNITE body built by sendViaCluster (Cluster.cpp lines 379-401) when
the unite hint is set and the from-peer has best active addresses: target
address, source address, address count, then the serialized addresses. -/
def uniteBuf (topo : Nat → Option (InetAddress × InetAddress))
    (fromPeerAddress toPeerAddress : Nat) : List Nat :=
  let vp := if fromPeerAddress ≠ 0 then (topo fromPeerAddress).getD
      (InetAddress.nil, InetAddress.nil)
    else (InetAddress.nil, InetAddress.nil)
  let addrCount := (if vp.1.family ≠ 0 then 1 else 0) +
    (if vp.2.family ≠ 0 then 1 else 0)
  if addrCount ≠ 0 then
    addr5 toPeerAddress ++ addr5 fromPeerAddress ++ addrCount ::
      ((if vp.1.family ≠ 0 then vp.1.serialize else []) ++
       (if vp.2.family ≠ 0 then vp.2.serialize else []))
  else []

/-- Cluster::sendViaCluster (lines 363-413): reject over-long payloads; require
a fresh affinity entry owned by another member; optionally enqueue a PROXY_UNITE
to that member; hand the raw payload to the first advertised physical endpoint
of that member when it has one.  Returns the success flag, the new state and
the emitted events. -/
def sendViaCluster (ksf : List Nat → List Nat → Nat → Nat)
    (macf : List Nat → List Nat → List Nat)
    (topo : Nat → Option (InetAddress × InetAddress)) (ivgen : Nat → List Nat)
    (s : Cluster) (now fromPeerAddress toPeerAddress : Nat) (data : List Nat)
    (unite : Bool) : Bool × Cluster × List Event :=
  if data.length > 16384 then (false, s, [])
  else
    match paLookup s.peerAffinities toPeerAddress with
    | none => (false, s, [])
    | some pa =>
      if pa.mid ≠ s.id ∧ usub64 now pa.ts < ZT_PEER_ACTIVITY_TIMEOUT then
        let buf := if unite then uniteBuf topo fromPeerAddress toPeerAddress
          else []
        let r1 := if buf.length > 0 then
            clusterSend ksf macf s pa.mid STATE_MESSAGE_PROXY_UNITE buf (ivgen 0)
          else (s, [])
        let ev2 := match (r1.1.members pa.mid).zeroTierPhysicalEndpoints with
          | [] => []
          | e :: _ => [Event.rawPacket e data]
        (true, r1.1, r1.2 ++ ev2)
      else (false, s, [])

/-- Broadcast one state message to every member in id order (the loops at
Cluster.cpp lines 436-440, 453-457, 467-471). -/
def broadcastToMembers (ksf : List Nat → List Nat → Nat → Nat)
    (macf : List Nat → List Nat → List Nat) (ivgen : Nat → List Nat)
    (s : Cluster) (ty : Nat) (buf : List Nat) : Cluster × List Event :=
  s.memberIds.foldl
    (fun acc mid =>
      ((clusterSend ksf macf acc.1 mid ty buf (ivgen mid)).1,
        acc.2 ++ (clusterSend ksf macf acc.1 mid ty buf (ivgen mid)).2))
    (s, [])

/-- Cluster::replicateHavePeer (lines 415-442): take or refresh ownership of
the peer affinity entry and broadcast HAVE_PEER to all members, except that a
refresh within ZT_CLUSTER_HAVE_PEER_ANNOUNCE_PERIOD of an entry we already own
does nothing.  Returns the new state, the list of HAVE_PEER sends performed
(one per member on a broadcast), and the frame events from auto-flushes.
A missing affinity entry is treated as not owned by us (spec 4.4 step 1: absent
or owned by a different member means take ownership; the default-constructed
_PA in Cluster.hpp, outside src/, carries an out-of-range member id).
This definition is the take-ownership-and-broadcast path (lines 420-441);
replicateHavePeer below adds the lookup and debounce around it. -/
def replicateHavePeerGo (ksf : List Nat → List Nat → Nat → Nat)
    (macf : List Nat → List Nat → List Nat) (ivgen : Nat → List Nat)
    (s : Cluster) (now : Nat) (peerId : Identity)
    (physicalAddress : InetAddress) :
    Cluster × List (Nat × List Nat) × List Event :=
  let buf := peerId.serialize ++ physicalAddress.serialize
  let s1 : Cluster :=
    { s with peerAffinities := paSet s.peerAffinities peerId.addr ⟨now, s.id⟩ }
  ((broadcastToMembers ksf macf ivgen s1 STATE_MESSAGE_HAVE_PEER buf).1,
    s1.memberIds.map (fun mid => (mid, buf)),
    (broadcastToMembers ksf macf ivgen s1 STATE_MESSAGE_HAVE_PEER buf).2)

def replicateHavePeer (ksf : List Nat → List Nat → Nat → Nat)
    (macf : List Nat → List Nat → List Nat) (ivgen : Nat → List Nat)
    (s : Cluster) (now : Nat) (peerId : Identity) (physicalAddress : InetAddress) :
    Cluster × List (Nat × List Nat) × List Event :=
  match paLookup s.peerAffinities peerId.addr with
  | none => replicateHavePeerGo ksf macf ivgen s now peerId physicalAddress
  | some pa =>
    if pa.mid ≠ s.id then
      replicateHavePeerGo ksf macf ivgen s now peerId physicalAddress
    else if usub64 now pa.ts < ZT_CLUSTER_HAVE_PEER_ANNOUNCE_PERIOD then
      (s, [], [])
    else
      replicateHavePeerGo ksf macf ivgen s now peerId physicalAddress

/-- Squared Euclidean distance between two integer points.  The source compares
double-precision square roots (_dist3d); strict comparison of nonnegative real
square roots is order-equivalent to strict comparison of the squares, so the
embedding compares squares exactly. -/
def dist3dSq (x1 y1 z1 x2 y2 z2 : Int) : Int :=
  (x2 - x1) * (x2 - x1) + (y2 - y1) * (y2 - y1) + (z2 - z1) * (z2 - z1)

/-- Condition under which the scan of Cluster::findBetterEndpoint considers a
member (line 620): alive within ZT_CLUSTER_TIMEOUT, nonzero advertised
location, at least one advertised physical endpoint. -/
def memberConsidered (s : Cluster) (now mid : Nat) : Prop :=
  usub64 now (s.members mid).lastReceivedAliveAnnouncement < ZT_CLUSTER_TIMEOUT ∧
  ((s.members mid).x ≠ 0 ∨ (s.members mid).y ≠ 0 ∨ (s.members mid).z ≠ 0) ∧
  (s.members mid).zeroTierPhysicalEndpoints ≠ []

instance (s : Cluster) (now mid : Nat) : Decidable (memberConsidered s now mid) := by
  unfold memberConsidered
  infer_instance

/-- The member scan of Cluster::findBetterEndpoint (lines 613-629): a
considered member becomes the new best when its distance is strictly below the
running best.  The accumulator carries the squared best distance, the best
member id and its endpoint list. -/
def scanStep (s : Cluster) (now : Nat) (px py pz : Int)
    (acc : Int × Nat × List InetAddress) (mid : Nat) :
    Int × Nat × List InetAddress :=
  if memberConsidered s now mid then
    if dist3dSq (s.members mid).x (s.members mid).y (s.members mid).z px py pz <
        acc.1 then
      (dist3dSq (s.members mid).x (s.members mid).y (s.members mid).z px py pz,
        mid, (s.members mid).zeroTierPhysicalEndpoints)
    else acc
  else acc

/-- Cluster::findBetterEndpoint (lines 597-645): geolocate the peer physical
address (none when no oracle is installed or it has no data), scan the members
for the closest live one below the baseline (our own distance, or 2^31 when
offloading, squared here to 2^62), and return the first endpoint of the chosen
member whose address family matches the peer.  peerAddress is carried by the
source only for tracing. -/
def findBetterEndpoint (s : Cluster)
    (geo : Option (InetAddress → Option (Int × Int × Int))) (now : Nat)
    (_peerAddress : Nat) (peerPhysicalAddress : InetAddress) (offload : Bool) :
    Option InetAddress :=
  match geo with
  | none => none
  | some oracle =>
    match oracle peerPhysicalAddress with
    | none => none
    | some (px, py, pz) =>
      let base : Int := if offload then 2 ^ 62 else dist3dSq s.x s.y s.z px py pz
      let r := s.memberIds.foldl (scanStep s now px py pz) (base, s.id, [])
      r.2.2.find? (fun a => a.family == peerPhysicalAddress.family)

/-- Affinity sweep of Cluster::doPeriodicTasks (lines 497-501): erase entries
whose age reaches five peer-activity timeouts. -/
def sweepAffinities (now : Nat) (m : List (Nat × PA)) : List (Nat × PA) :=
  m.filter (fun e => usub64 now e.2.ts < ZT_PEER_ACTIVITY_TIMEOUT * 5)

/-- Periodic affinity GC branch of Cluster::doPeriodicTasks (lines 491-502):
when five peer-activity timeouts have passed since the last sweep, record the
sweep time and filter the affinity map. -/
def doPeriodicTasksGC (s : Cluster) (now : Nat) : Cluster :=
  if usub64 now s.lastCleanedPeerAffinities ≥ ZT_PEER_ACTIVITY_TIMEOUT * 5 then
    { s with lastCleanedPeerAffinities := now,
             peerAffinities := sweepAffinities now s.peerAffinities }
  else s

/-! ## Concrete fixtures used by the witness theorems -/

/-- A concrete keystream function for witnesses. -/
def ks0 : List Nat → List Nat → Nat → Nat := fun _ _ i => i % 256

/-- A concrete 16-byte one-time MAC function for witnesses. -/
def mac0 : List Nat → List Nat → List Nat :=
  fun pk d => List.replicate 16 ((pk.sum + d.sum) % 256)

/-- A topology oracle that knows no peers. -/
def topo0 : Nat → Option (InetAddress × InetAddress) := fun _ => none

/-- A fixed IV supply for witnesses. -/
def ivgen0 : Nat → List Nat := fun _ => List.range 16

/-- A blank member record for witnesses. -/
def mem0 : MemberRec := ⟨List.replicate 32 3, [], 0, 0, 0, 0, [], 0, 0⟩

/-- A small concrete cluster state for witnesses: local id 0, members 1 and 2. -/
def clus0 : Cluster :=
  ⟨0, List.replicate 32 7, [1, 2], fun _ => mem0, [], 0, 0, 0, [], 0, 0, 0⟩

/-- A concrete identity for witnesses: overlay address 5, no key material. -/
def identW : Identity := ⟨5, []⟩

/-- A concrete IPv4 socket address for witnesses. -/
def physW : InetAddress := ⟨AF_INET, [1, 2, 3, 4], 9993⟩

/-- A concrete decrypted HAVE_PEER sub-message body for witnesses: the type
byte followed by a serialized identity and a serialized socket address. -/
def dmsgHavePeer : List Nat :=
  STATE_MESSAGE_HAVE_PEER :: identW.serialize ++ physW.serialize

/-- A cluster state for witnesses whose affinity map points peer 5 at member 1
with timestamp 100. -/
def clusAff : Cluster := { clus0 with peerAffinities := [(5, ⟨100, 1⟩)] }

/-- A member record for witnesses: at location (100, 0, 0), one IPv6 endpoint,
heartbeat at time 0. -/
def memGeo : MemberRec :=
  { mem0 with x := 100,
              zeroTierPhysicalEndpoints := [⟨AF_INET6, [0, 0, 0, 0], 1⟩],
              lastReceivedAliveAnnouncement := 0 }

/-- A cluster for witnesses with the single live member 1 = memGeo. -/
def clusGeo : Cluster :=
  { clus0 with memberIds := [1],
               members := fun i => if i = 1 then memGeo else mem0 }

/-- A geolocation oracle for witnesses placing every address at (200, 0, 0). -/
def geoW : InetAddress → Option (Int × Int × Int) := fun _ => some (200, 0, 0)

/-- A cluster for witnesses with one stale and one fresh affinity entry and a
long-overdue sweep. -/
def clusGC : Cluster :=
  { clus0 with peerAffinities := [(1, ⟨0, 1⟩), (2, ⟨1999999, 1⟩)],
               lastCleanedPeerAffinities := 0 }

/-! ## Helper lemmas -/

theorem xorKs_length (f : Nat → Nat) (i : Nat) (l : List Nat) :
    (xorKs f i l).length = l.length := by
  induction l generalizing i with
  | nil => rfl
  | cons b t ih => simp [xorKs, ih]

theorem xorKs_xorKs (f : Nat → Nat) (i : Nat) (l : List Nat) :
    xorKs f i (xorKs f i l) = l := by
  induction l generalizing i with
  | nil => rfl
  | cons b t ih =>
    simp only [xorKs, ih]
    rw [Nat.xor_assoc, Nat.xor_self, Nat.xor_zero]

theorem take_append_left {α : Type} (l1 l2 : List α) (n : Nat)
    (h : n ≤ l1.length) : (l1 ++ l2).take n = l1.take n := by
  rw [List.take_append_eq_append_take, Nat.sub_eq_zero_of_le h, List.take_zero,
    List.append_nil]

theorem drop_append_left {α : Type} (l1 l2 : List α) (n : Nat)
    (h : l1.length ≤ n) : (l1 ++ l2).drop n = l2.drop (n - l1.length) := by
  rw [List.drop_append_eq_append_drop, List.drop_eq_nil_of_le h, List.nil_append]

theorem u16be_length (n : Nat) : (u16be n).length = 2 := rfl

/-- Core framer round trip: unsealing the frame sealed from a buffer with a
16-byte IV, an 8-byte MAC slot and a body recovers the body, for any keystream
function and any deterministic 16-byte MAC function. -/
theorem unseal_seal (ksf : List Nat → List Nat → Nat → Nat)
    (macf : List Nat → List Nat → List Nat) (key iv r8 body : List Nat)
    (hiv : iv.length = 16) (hr8 : r8.length = 8)
    (hlen : body.length ≤ ZT_CLUSTER_MAX_MESSAGE_LENGTH - 24)
    (hmac : ∀ pk d, (macf pk d).length = 16) :
    unsealFrame ksf macf key (sealQ ksf macf key (iv ++ r8 ++ body)) =
      some body := by
  have htake16 : (iv ++ (r8 ++ body)).take 16 = iv := by
    rw [take_append_left _ _ _ (by omega), List.take_of_length_le (by omega)]
  have htake8 : (iv ++ (r8 ++ body)).take 8 = iv.take 8 :=
    take_append_left _ _ _ (by omega)
  have hivd8 : (iv.drop 8).length = 8 := by simp [hiv]
  have hnonceq : clusterNonce (iv ++ (r8 ++ body)) = iv.drop 8 := by
    unfold clusterNonce
    rw [List.drop_append_eq_append_drop, Nat.sub_eq_zero_of_le (by omega),
      List.drop_zero, take_append_left _ _ _ (by omega),
      List.take_of_length_le (by omega)]
  have hdrop24 : (iv ++ (r8 ++ body)).drop 24 = body := by
    rw [drop_append_left _ _ _ (by omega), hiv,
      drop_append_left _ _ _ (by omega), hr8]
    simp
  have hctlen : (streamXorBody ksf key (iv ++ (r8 ++ body))).length =
      body.length := by
    unfold streamXorBody; rw [hdrop24, xorKs_length]
  have hm8 : ((macf (clusterPolykey ksf key (iv ++ (r8 ++ body)))
      (streamXorBody ksf key (iv ++ (r8 ++ body)))).take 8).length = 8 := by
    simp [List.length_take, hmac]
  have hseal : sealQ ksf macf key (iv ++ (r8 ++ body)) =
      iv ++ ((macf (clusterPolykey ksf key (iv ++ (r8 ++ body)))
        (streamXorBody ksf key (iv ++ (r8 ++ body)))).take 8 ++
        streamXorBody ksf key (iv ++ (r8 ++ body))) := by
    unfold sealQ
    rw [htake16, List.append_assoc]
  generalize hmc : (macf (clusterPolykey ksf key (iv ++ (r8 ++ body)))
    (streamXorBody ksf key (iv ++ (r8 ++ body)))).take 8 = mac8 at *
  generalize hctc : streamXorBody ksf key (iv ++ (r8 ++ body)) = ct at *
  have hftake8 : (iv ++ (mac8 ++ ct)).take 8 = iv.take 8 :=
    take_append_left _ _ _ (by omega)
  have hkeytmpeq : clusterKeytmp key (iv ++ (mac8 ++ ct)) =
      clusterKeytmp key (iv ++ (r8 ++ body)) := by
    unfold clusterKeytmp; rw [hftake8, htake8]
  have hfnonce : clusterNonce (iv ++ (mac8 ++ ct)) = iv.drop 8 := by
    unfold clusterNonce
    rw [List.drop_append_eq_append_drop, Nat.sub_eq_zero_of_le (by omega),
      List.drop_zero, take_append_left _ _ _ (by omega),
      List.take_of_length_le (by omega)]
  have hpolyeq : clusterPolykey ksf key (iv ++ (mac8 ++ ct)) =
      clusterPolykey ksf key (iv ++ (r8 ++ body)) := by
    unfold clusterPolykey; rw [hkeytmpeq, hfnonce, hnonceq]
  have hfdrop24 : (iv ++ (mac8 ++ ct)).drop 24 = ct := by
    rw [drop_append_left _ _ _ (by omega), hiv,
      drop_append_left _ _ _ (by omega), hm8]
    simp
  have hfdrop16 : (iv ++ (mac8 ++ ct)).drop 16 = mac8 ++ ct := by
    rw [drop_append_left _ _ _ (by omega), hiv]; simp
  have hflen : (iv ++ (mac8 ++ ct)).length = 24 + body.length := by
    simp [hiv, hm8, hctlen]; omega
  rw [List.append_assoc iv r8 body, hseal]
  unfold unsealFrame
  rw [if_neg (by
    simp only [ZT_CLUSTER_MAX_MESSAGE_LENGTH] at *
    omega)]
  rw [if_neg (by
    intro hne
    apply hne
    rw [hfdrop24, hfdrop16, hpolyeq, hmc, take_append_left _ _ _ (by omega),
      List.take_of_length_le (by omega)])]
  unfold streamXorBody
  rw [hkeytmpeq, hfnonce, ← hnonceq, hfdrop24, ← hctc]
  unfold streamXorBody
  rw [hdrop24, xorKs_xorKs]

/-! ## Claim C1 -/

/-- C1: for any 32-byte link key, 16-byte IV and non-empty batched body of at
most MAX_MESSAGE_LEN - 28 sub-message bytes, Cluster::_flush seals exactly one
frame from the queue, and the inbound MAC check and decryption of
Cluster::handleIncomingStateMessage applied to that frame with the same key
succeeds and returns exactly the original plaintext body (sender id, recipient
id, sub-message bytes). -/
theorem framer_roundtrip (ksf : List Nat → List Nat → Nat → Nat)
    (macf : List Nat → List Nat → List Nat) (key iv r8 sub iv2 : List Nat)
    (lid mid sid rid : Nat)
    (_hkey : key.length = 32) (hiv : iv.length = 16) (hr8 : r8.length = 8)
    (hsub : sub ≠ []) (hlen : sub.length ≤ ZT_CLUSTER_MAX_MESSAGE_LENGTH - 28)
    (_hsid : sid < 65536) (_hrid : rid < 65536)
    (hmac : ∀ pk d, (macf pk d).length = 16) :
    flushQ ksf macf key lid mid iv2
        (iv ++ r8 ++ (u16be sid ++ u16be rid ++ sub)) =
      (resetQ iv2 lid mid,
        [sealQ ksf macf key (iv ++ r8 ++ (u16be sid ++ u16be rid ++ sub))]) ∧
    unsealFrame ksf macf key
        (sealQ ksf macf key (iv ++ r8 ++ (u16be sid ++ u16be rid ++ sub))) =
      some (u16be sid ++ u16be rid ++ sub) := by
  have hpos : 0 < sub.length := List.length_pos.mpr hsub
  constructor
  · unfold flushQ
    rw [if_pos (by
      simp only [List.length_append, hiv, hr8, u16be_length]
      omega)]
  · exact unseal_seal ksf macf key iv r8 (u16be sid ++ u16be rid ++ sub) hiv hr8
      (by
        simp only [List.length_append, u16be_length,
          ZT_CLUSTER_MAX_MESSAGE_LENGTH] at *
        omega) hmac

/-- Witness for C1: the round trip evaluated at a concrete key, IV, reserved
bytes, member ids and a one-byte sub-message body. -/
theorem framer_roundtrip_witness :
    flushQ ks0 mac0 (List.replicate 32 7) 3 4 (List.range 16)
        (List.range 16 ++ List.replicate 8 0 ++ (u16be 1 ++ u16be 2 ++ [9])) =
      (resetQ (List.range 16) 3 4,
        [sealQ ks0 mac0 (List.replicate 32 7)
          (List.range 16 ++ List.replicate 8 0 ++ (u16be 1 ++ u16be 2 ++ [9]))]) ∧
    unsealFrame ks0 mac0 (List.replicate 32 7)
        (sealQ ks0 mac0 (List.replicate 32 7)
          (List.range 16 ++ List.replicate 8 0 ++ (u16be 1 ++ u16be 2 ++ [9]))) =
      some (u16be 1 ++ u16be 2 ++ [9]) :=
  framer_roundtrip ks0 mac0 (List.replicate 32 7) (List.range 16)
    (List.replicate 8 0) [9] (List.range 16) 3 4 1 2 (by decide) (by decide)
    (by decide) (by decide) (by decide) (by decide) (by decide)
    (fun pk d => by simp [mac0])

/-! ## Claim C2 -/

theorem unsealFrame_some (ksf : List Nat → List Nat → Nat → Nat)
    (macf : List Nat → List Nat → List Nat) (key msg dmsg : List Nat)
    (h : unsealFrame ksf macf key msg = some dmsg) :
    dmsg = streamXorBody ksf key msg ∧
    ¬(msg.length < 24 ∨ msg.length > ZT_CLUSTER_MAX_MESSAGE_LENGTH) ∧
    (macf (clusterPolykey ksf key msg) (msg.drop 24)).take 8 =
      (msg.drop 16).take 8 := by
  unfold unsealFrame at h
  split at h
  · exact absurd h (by simp)
  next h1 =>
    split at h
    · exact absurd h (by simp)
    next h2 => exact ⟨(Option.some.inj h).symm, h1, not_not.mp h2⟩

/-- C2: Cluster::handleIncomingStateMessage drops the whole frame, with no
state change and no dispatched sub-message, whenever the frame length is below
24 or above the maximum, or the first 8 bytes of the recomputed MAC differ from
bytes 16..24, or the decrypted sender id equals the local id, or the decrypted
recipient id differs from the local id, or the decrypted sender id is not in
the member id set. -/
theorem handleIncoming_rejects (ksf : List Nat → List Nat → Nat → Nat)
    (macf : List Nat → List Nat → List Nat)
    (topo : Nat → Option (InetAddress × InetAddress)) (ivgen : Nat → List Nat)
    (s : Cluster) (now : Nat) (msg : List Nat)
    (h : msg.length < 24 ∨ msg.length > ZT_CLUSTER_MAX_MESSAGE_LENGTH ∨
      (macf (clusterPolykey ksf s.key msg) (msg.drop 24)).take 8 ≠
        (msg.drop 16).take 8 ∨
      u16at (streamXorBody ksf s.key msg) 0 = s.id ∨
      u16at (streamXorBody ksf s.key msg) 2 ≠ s.id ∨
      u16at (streamXorBody ksf s.key msg) 0 ∉ s.memberIds) :
    handleIncomingStateMessage ksf macf topo ivgen s now msg = (s, []) := by
  unfold handleIncomingStateMessage
  cases hu : unsealFrame ksf macf s.key msg with
  | none => rfl
  | some dmsg =>
    obtain ⟨hdm, hlen2, hmaceq⟩ := unsealFrame_some ksf macf s.key msg dmsg hu
    dsimp only
    rcases h with h | h | h | h | h | h
    · exact absurd (Or.inl h) hlen2
    · exact absurd (Or.inr h) hlen2
    · exact absurd hmaceq h
    · rw [← hdm] at h
      split_ifs <;> rfl
    · rw [← hdm] at h
      split_ifs <;> rfl
    · rw [← hdm] at h
      split_ifs <;> rfl

/-- Witness for C2: an empty frame (length below 24) is dropped with no state
change and no events. -/
theorem handleIncoming_rejects_witness :
    ([] : List Nat).length < 24 ∧
    handleIncomingStateMessage ks0 mac0 topo0 ivgen0 clus0 0 [] = (clus0, []) :=
  ⟨by decide,
    handleIncoming_rejects ks0 mac0 topo0 ivgen0 clus0 0 [] (Or.inl (by decide))⟩

/-! ## Claim C3 -/

theorem paLookup_paSet_self (m : List (Nat × PA)) (a : Nat) (v : PA) :
    paLookup (paSet m a v) a = some v := by
  induction m with
  | nil => simp [paSet, paLookup]
  | cons e t ih =>
    obtain ⟨b, w⟩ := e
    by_cases hb : b = a
    · simp [paSet, hb, paLookup]
    · simp [paSet, hb, paLookup, ih]

theorem paLookup_paSet_ne (m : List (Nat × PA)) (a b : Nat) (v : PA)
    (h : b ≠ a) : paLookup (paSet m a v) b = paLookup m b := by
  induction m with
  | nil => simp [paSet, paLookup, Ne.symm h]
  | cons e t ih =>
    obtain ⟨c, w⟩ := e
    by_cases hc : c = a
    · subst hc
      simp [paSet, paLookup, Ne.symm h]
    · simp [paSet, hc, paLookup, ih]

/-- C3: when Cluster::handleIncomingStateMessage dispatches a well-formed
HAVE_PEER sub-message from an accepted sender M (a non-local member in the
member id set) carrying an identity with address P at node time t, the affinity
entry for P afterwards equals (M, t) regardless of its previous value, every
other affinity entry is untouched, and since M differs from the local id an
inbound HAVE_PEER never records the local member as owner. -/
theorem havePeer_affinity (ksf : List Nat → List Nat → Nat → Nat)
    (macf : List Nat → List Nat → List Nat)
    (topo : Nat → Option (InetAddress × InetAddress)) (ivgen : Nat → List Nat)
    (s : Cluster) (M now : Nat) (dmsg : List Nat) (tp : Nat) (ident : Identity)
    (p2 : Nat) (phys : InetAddress) (p3 : Nat)
    (_hM : M ∈ s.memberIds) (hMne : M ≠ s.id)
    (htp : tp < dmsg.length) (hty : dmsg.getD tp 0 = STATE_MESSAGE_HAVE_PEER)
    (hid : Identity.deserializeAt dmsg (tp + 1) = some (ident, p2))
    (hph : InetAddress.deserializeAt dmsg p2 = some (phys, p3))
    (hnz : ident.addr ≠ 0) :
    paLookup
        (handleSubMessage ksf macf topo ivgen s M now dmsg tp).1.peerAffinities
        ident.addr = some ⟨now, M⟩ ∧
    (∀ a, a ≠ ident.addr → paLookup
        (handleSubMessage ksf macf topo ivgen s M now dmsg tp).1.peerAffinities
        a = paLookup s.peerAffinities a) ∧
    M ≠ s.id := by
  unfold handleSubMessage
  rw [if_pos htp, hty, if_neg (by decide), if_pos rfl]
  unfold handleHavePeer
  rw [hid]
  dsimp only
  rw [hph]
  dsimp only
  rw [if_pos hnz]
  exact ⟨paLookup_paSet_self _ _ _,
    fun a ha => paLookup_paSet_ne _ _ _ _ ha, hMne⟩

/-- Witness for C3: dispatching a concrete well-formed HAVE_PEER from member 1
at time 777 makes the affinity entry for peer 5 equal (1, 777). -/
theorem havePeer_affinity_witness :
    paLookup
        (handleSubMessage ks0 mac0 topo0 ivgen0 clus0 1 777 dmsgHavePeer
          0).1.peerAffinities 5 = some ⟨777, 1⟩ :=
  (havePeer_affinity ks0 mac0 topo0 ivgen0 clus0 1 777 dmsgHavePeer 0 identW 7
    physW 15 (by decide) (by decide) (by decide) (by decide) (by decide)
    (by decide) (by decide)).1

/-! ## Claim C4 -/

theorem usub64_eq_sub (a b : Nat) (hb : b ≤ a) (ha : a < 2 ^ 64) :
    usub64 a b = a - b := by
  unfold usub64
  omega

theorem foldSend_fields (ksf : List Nat → List Nat → Nat → Nat)
    (macf : List Nat → List Nat → List Nat) (ivgen : Nat → List Nat)
    (ty : Nat) (buf : List Nat) (l : List Nat) :
    ∀ acc : Cluster × List Event,
      (List.foldl
        (fun acc mid =>
          ((clusterSend ksf macf acc.1 mid ty buf (ivgen mid)).1,
            acc.2 ++ (clusterSend ksf macf acc.1 mid ty buf (ivgen mid)).2))
        acc l).1.peerAffinities = acc.1.peerAffinities ∧
      (List.foldl
        (fun acc mid =>
          ((clusterSend ksf macf acc.1 mid ty buf (ivgen mid)).1,
            acc.2 ++ (clusterSend ksf macf acc.1 mid ty buf (ivgen mid)).2))
        acc l).1.id = acc.1.id ∧
      (List.foldl
        (fun acc mid =>
          ((clusterSend ksf macf acc.1 mid ty buf (ivgen mid)).1,
            acc.2 ++ (clusterSend ksf macf acc.1 mid ty buf (ivgen mid)).2))
        acc l).1.memberIds = acc.1.memberIds := by
  induction l with
  | nil => exact fun acc => ⟨rfl, rfl, rfl⟩
  | cons m t ih =>
    intro acc
    simp only [List.foldl_cons]
    exact ⟨(ih _).1.trans rfl, (ih _).2.1.trans rfl, (ih _).2.2.trans rfl⟩

theorem broadcastToMembers_fields (ksf : List Nat → List Nat → Nat → Nat)
    (macf : List Nat → List Nat → List Nat) (ivgen : Nat → List Nat)
    (s : Cluster) (ty : Nat) (buf : List Nat) :
    (broadcastToMembers ksf macf ivgen s ty buf).1.peerAffinities =
      s.peerAffinities ∧
    (broadcastToMembers ksf macf ivgen s ty buf).1.id = s.id ∧
    (broadcastToMembers ksf macf ivgen s ty buf).1.memberIds = s.memberIds := by
  unfold broadcastToMembers
  exact foldSend_fields ksf macf ivgen ty buf s.memberIds (s, [])

theorem replicateHavePeerGo_fields (ksf : List Nat → List Nat → Nat → Nat)
    (macf : List Nat → List Nat → List Nat) (ivgen : Nat → List Nat)
    (s : Cluster) (now : Nat) (pid : Identity) (phys : InetAddress) :
    (replicateHavePeerGo ksf macf ivgen s now pid phys).1.peerAffinities =
      paSet s.peerAffinities pid.addr ⟨now, s.id⟩ ∧
    (replicateHavePeerGo ksf macf ivgen s now pid phys).1.id = s.id := by
  unfold replicateHavePeerGo
  dsimp only
  exact ⟨(broadcastToMembers_fields _ _ _ _ _ _).1,
    (broadcastToMembers_fields _ _ _ _ _ _).2.1⟩

theorem replicateHavePeer_broadcast_state (ksf : List Nat → List Nat → Nat → Nat)
    (macf : List Nat → List Nat → List Nat) (ivgen : Nat → List Nat)
    (s : Cluster) (now : Nat) (pid : Identity) (phys : InetAddress)
    (hb : (replicateHavePeer ksf macf ivgen s now pid phys).2.1 ≠ []) :
    (replicateHavePeer ksf macf ivgen s now pid phys).1.peerAffinities =
      paSet s.peerAffinities pid.addr ⟨now, s.id⟩ ∧
    (replicateHavePeer ksf macf ivgen s now pid phys).1.id = s.id := by
  unfold replicateHavePeer at hb ⊢
  cases hpa : paLookup s.peerAffinities pid.addr with
  | none =>
    exact replicateHavePeerGo_fields ksf macf ivgen s now pid phys
  | some pa =>
    rw [hpa] at hb
    dsimp only at hb ⊢
    by_cases hmid : pa.mid ≠ s.id
    · rw [if_pos hmid]
      exact replicateHavePeerGo_fields ksf macf ivgen s now pid phys
    · rw [if_neg hmid] at hb ⊢
      by_cases hts : usub64 now pa.ts < ZT_CLUSTER_HAVE_PEER_ANNOUNCE_PERIOD
      · rw [if_pos hts] at hb
        exact absurd rfl hb
      · rw [if_neg hts]
        exact replicateHavePeerGo_fields ksf macf ivgen s now pid phys

theorem replicateHavePeer_noop (ksf : List Nat → List Nat → Nat → Nat)
    (macf : List Nat → List Nat → List Nat) (ivgen : Nat → List Nat)
    (s : Cluster) (now : Nat) (pid : Identity) (phys : InetAddress) (pa : PA)
    (hpa : paLookup s.peerAffinities pid.addr = some pa) (hmid : pa.mid = s.id)
    (hts : usub64 now pa.ts < ZT_CLUSTER_HAVE_PEER_ANNOUNCE_PERIOD) :
    replicateHavePeer ksf macf ivgen s now pid phys = (s, [], []) := by
  unfold replicateHavePeer
  rw [hpa]
  dsimp only
  rw [if_neg (by simp [hmid]), if_pos hts]

/-- C4: a local replicateHavePeer call at time t1 that broadcasts leaves the
affinity entry for the peer at (local id, t1); a second call within
ZT_CLUSTER_HAVE_PEER_ANNOUNCE_PERIOD then performs no HAVE_PEER send at all,
emits no frame and leaves the state (in particular the affinity timestamp t1)
unchanged, so the two calls produce exactly one broadcast. -/
theorem replicateHavePeer_debounce (ksf : List Nat → List Nat → Nat → Nat)
    (macf : List Nat → List Nat → List Nat) (ivgen : Nat → List Nat)
    (s : Cluster) (t1 t2 : Nat) (pid : Identity) (phys : InetAddress)
    (h12 : t1 ≤ t2) (h2 : t2 < 2 ^ 64)
    (hdelta : t2 - t1 < ZT_CLUSTER_HAVE_PEER_ANNOUNCE_PERIOD)
    (hb : (replicateHavePeer ksf macf ivgen s t1 pid phys).2.1 ≠ []) :
    paLookup (replicateHavePeer ksf macf ivgen s t1 pid phys).1.peerAffinities
        pid.addr = some ⟨t1, s.id⟩ ∧
    replicateHavePeer ksf macf ivgen
        (replicateHavePeer ksf macf ivgen s t1 pid phys).1 t2 pid phys =
      ((replicateHavePeer ksf macf ivgen s t1 pid phys).1, [], []) := by
  obtain ⟨haff, hid⟩ :=
    replicateHavePeer_broadcast_state ksf macf ivgen s t1 pid phys hb
  have hlook : paLookup
      (replicateHavePeer ksf macf ivgen s t1 pid phys).1.peerAffinities
      pid.addr = some ⟨t1, s.id⟩ := by
    rw [haff]
    exact paLookup_paSet_self _ _ _
  refine ⟨hlook, ?_⟩
  exact replicateHavePeer_noop ksf macf ivgen _ t2 pid phys ⟨t1, s.id⟩ hlook
    (by rw [hid]) (by rw [usub64_eq_sub t2 t1 h12 h2]; exact hdelta)

/-- Witness for C4: on a concrete cluster with an empty affinity map, a local
replicateHavePeer at t = 2000 broadcasts and takes ownership, and a second call
at t = 32000 (half the announce period later) does nothing. -/
theorem replicateHavePeer_debounce_witness :
    paLookup (replicateHavePeer ks0 mac0 ivgen0 clus0 2000 identW
        physW).1.peerAffinities identW.addr = some ⟨2000, clus0.id⟩ ∧
    replicateHavePeer ks0 mac0 ivgen0
        (replicateHavePeer ks0 mac0 ivgen0 clus0 2000 identW physW).1 32000
        identW physW =
      ((replicateHavePeer ks0 mac0 ivgen0 clus0 2000 identW physW).1, [], []) :=
  replicateHavePeer_debounce ks0 mac0 ivgen0 clus0 2000 32000 identW physW
    (by decide) (by decide) (by decide) (by decide)

/-! ## Claims C5 and C10 -/

/-- C5: Cluster::sendViaCluster returns false with no state change and no
events exactly when the payload exceeds 16384 bytes, or the affinity map has no
entry for the target peer, or the entry is owned by the local member, or the
entry is stale; in every other case it returns true. -/
theorem sendViaCluster_gating (ksf : List Nat → List Nat → Nat → Nat)
    (macf : List Nat → List Nat → List Nat)
    (topo : Nat → Option (InetAddress × InetAddress)) (ivgen : Nat → List Nat)
    (s : Cluster) (now fromP toP : Nat) (data : List Nat) (unite : Bool) :
    (sendViaCluster ksf macf topo ivgen s now fromP toP data unite =
        (false, s, []) ↔
      (data.length > 16384 ∨ paLookup s.peerAffinities toP = none ∨
        (∃ pa, paLookup s.peerAffinities toP = some pa ∧ pa.mid = s.id) ∨
        (∃ pa, paLookup s.peerAffinities toP = some pa ∧
          usub64 now pa.ts ≥ ZT_PEER_ACTIVITY_TIMEOUT))) ∧
    ((sendViaCluster ksf macf topo ivgen s now fromP toP data unite).1 = true ↔
      ¬(data.length > 16384 ∨ paLookup s.peerAffinities toP = none ∨
        (∃ pa, paLookup s.peerAffinities toP = some pa ∧ pa.mid = s.id) ∨
        (∃ pa, paLookup s.peerAffinities toP = some pa ∧
          usub64 now pa.ts ≥ ZT_PEER_ACTIVITY_TIMEOUT))) := by
  unfold sendViaCluster
  by_cases hl : data.length > 16384
  · rw [if_pos hl]
    constructor
    · exact iff_of_true rfl (Or.inl hl)
    · exact iff_of_false (by simp) (by simp [hl])
  · rw [if_neg hl]
    cases hpa : paLookup s.peerAffinities toP with
    | none =>
      constructor
      · exact iff_of_true rfl (Or.inr (Or.inl rfl))
      · exact iff_of_false (by simp) (by simp [hpa])
    | some pa =>
      dsimp only
      by_cases hg : pa.mid ≠ s.id ∧ usub64 now pa.ts < ZT_PEER_ACTIVITY_TIMEOUT
      · rw [if_pos hg]
        have hnC : ¬(data.length > 16384 ∨
            (some pa : Option PA) = none ∨
            (∃ pa', (some pa : Option PA) = some pa' ∧ pa'.mid = s.id) ∨
            (∃ pa', (some pa : Option PA) = some pa' ∧
              usub64 now pa'.ts ≥ ZT_PEER_ACTIVITY_TIMEOUT)) := by
          rintro (h | h | ⟨pa', hpa', hmid⟩ | ⟨pa', hpa', hts⟩)
          · exact hl h
          · cases h
          · exact hg.1 ((Option.some.inj hpa') ▸ hmid)
          · exact absurd ((Option.some.inj hpa') ▸ hts) (not_le.mpr hg.2)
        constructor
        · exact iff_of_false (by simp [Prod.ext_iff]) hnC
        · exact iff_of_true rfl hnC
      · rw [if_neg hg]
        have hC : pa.mid = s.id ∨ usub64 now pa.ts ≥ ZT_PEER_ACTIVITY_TIMEOUT := by
          by_cases hm : pa.mid = s.id
          · exact Or.inl hm
          · exact Or.inr (not_lt.mp (fun hlt => hg ⟨hm, hlt⟩))
        constructor
        · refine iff_of_true rfl ?_
          rcases hC with h | h
          · exact Or.inr (Or.inr (Or.inl ⟨pa, rfl, h⟩))
          · exact Or.inr (Or.inr (Or.inr ⟨pa, rfl, h⟩))
        · refine iff_of_false (by simp) ?_
          intro hn
          apply hn
          rcases hC with h | h
          · exact Or.inr (Or.inr (Or.inl ⟨pa, rfl, h⟩))
          · exact Or.inr (Or.inr (Or.inr ⟨pa, rfl, h⟩))

theorem clusterSend_no_raw (ksf : List Nat → List Nat → Nat → Nat)
    (macf : List Nat → List Nat → List Nat) (s : Cluster) (mid ty : Nat)
    (msg freshIv : List Nat) :
    ∀ e ∈ (clusterSend ksf macf s mid ty msg freshIv).2,
      isRawPacketEvent e = false := by
  unfold clusterSend
  dsimp only
  intro e he
  obtain ⟨f, _, rfl⟩ := List.mem_map.mp he
  rfl

theorem clusterSend_eps (ksf : List Nat → List Nat → Nat → Nat)
    (macf : List Nat → List Nat → List Nat) (s : Cluster) (mid ty : Nat)
    (msg freshIv : List Nat) :
    ((clusterSend ksf macf s mid ty msg freshIv).1.members
        mid).zeroTierPhysicalEndpoints =
      (s.members mid).zeroTierPhysicalEndpoints := by
  unfold clusterSend
  dsimp only
  rw [Function.update_same]

/-- C10: when sendViaCluster passes the affinity gate (entry present, owned by
a fresh non-local member) but the owning member advertises no physical
endpoint, the call still returns true while emitting no raw packet: the payload
is silently not relayed. -/
theorem sendViaCluster_no_endpoint (ksf : List Nat → List Nat → Nat → Nat)
    (macf : List Nat → List Nat → List Nat)
    (topo : Nat → Option (InetAddress × InetAddress)) (ivgen : Nat → List Nat)
    (s : Cluster) (now fromP toP : Nat) (data : List Nat) (unite : Bool)
    (pa : PA) (hlen : data.length ≤ 16384)
    (hpa : paLookup s.peerAffinities toP = some pa)
    (hmid : pa.mid ≠ s.id) (hts : usub64 now pa.ts < ZT_PEER_ACTIVITY_TIMEOUT)
    (heps : (s.members pa.mid).zeroTierPhysicalEndpoints = []) :
    (sendViaCluster ksf macf topo ivgen s now fromP toP data unite).1 = true ∧
    ∀ e ∈ (sendViaCluster ksf macf topo ivgen s now fromP toP data unite).2.2,
      isRawPacketEvent e = false := by
  unfold sendViaCluster
  rw [if_neg (not_lt.mpr hlen), hpa]
  dsimp only
  rw [if_pos ⟨hmid, hts⟩]
  by_cases hbuf : (if unite then uniteBuf topo fromP toP else []).length > 0
  · rw [if_pos hbuf]
    dsimp only
    rw [clusterSend_eps, heps]
    refine ⟨rfl, ?_⟩
    intro e he
    rw [List.append_nil] at he
    exact clusterSend_no_raw ksf macf s pa.mid STATE_MESSAGE_PROXY_UNITE _ _ e he
  · rw [if_neg hbuf]
    dsimp only
    rw [heps]
    exact ⟨rfl, by intro e he; cases he⟩

/-- Witness for C10: a concrete cluster whose affinity entry for peer 5 names
fresh member 1, which advertises no endpoints; the call returns true and no raw
packet is emitted. -/
theorem sendViaCluster_no_endpoint_witness :
    (sendViaCluster ks0 mac0 topo0 ivgen0 clusAff 200 7 5 [1, 2, 3] true).1 =
      true ∧
    ∀ e ∈ (sendViaCluster ks0 mac0 topo0 ivgen0 clusAff 200 7 5 [1, 2, 3]
        true).2.2, isRawPacketEvent e = false :=
  sendViaCluster_no_endpoint ks0 mac0 topo0 ivgen0 clusAff 200 7 5 [1, 2, 3]
    true ⟨100, 1⟩ (by decide) (by decide) (by decide) (by decide) (by decide)

/-! ## Claim C6 -/

theorem encodeSub_length (m : Nat × List Nat) :
    (encodeSub m).length = m.2.length + 3 := by
  simp [encodeSub, u16be]

theorem encodeAll_length (msgs : List (Nat × List Nat)) :
    (encodeAll msgs).length = totalSize msgs := by
  induction msgs with
  | nil => rfl
  | cons m t ih =>
    simp [encodeAll, totalSize, encodeSub_length] at *
    omega

theorem resetQ_length (iv : List Nat) (lid mid : Nat) (hiv : iv.length = 16) :
    (resetQ iv lid mid).length = 28 := by
  simp [resetQ, hiv, u16be]

theorem totalSize_pos (msgs : List (Nat × List Nat)) (h : msgs ≠ []) :
    3 ≤ totalSize msgs := by
  cases msgs with
  | nil => exact absurd rfl h
  | cons m t => simp [totalSize]; omega

theorem sendAll_fits (ksf : List Nat → List Nat → Nat → Nat)
    (macf : List Nat → List Nat → List Nat) (key : List Nat) (lid mid : Nat)
    (freshIv : List Nat) :
    ∀ (msgs : List (Nat × List Nat)) (q : List Nat) (fs : List (List Nat)),
      28 ≤ q.length →
      q.length + totalSize msgs ≤ ZT_CLUSTER_MAX_MESSAGE_LENGTH →
      sendAll ksf macf key lid mid freshIv (q, fs) msgs =
        (q ++ encodeAll msgs, fs) := by
  intro msgs
  induction msgs with
  | nil =>
    intro q fs _ _
    simp [sendAll, encodeAll]
  | cons m t ih =>
    intro q fs h1 h2
    obtain ⟨ty, pl⟩ := m
    have htot : pl.length + 3 + totalSize t = totalSize ((ty, pl) :: t) := by
      simp [totalSize]
    have hs : sendQ ksf macf key lid mid freshIv q ty pl =
        (q ++ encodeSub (ty, pl), []) := by
      unfold sendQ
      rw [if_neg (by
        simp only [ZT_CLUSTER_MAX_MESSAGE_LENGTH] at h2 ⊢
        omega)]
      rw [if_neg (by
        simp only [ZT_CLUSTER_MAX_MESSAGE_LENGTH] at h2 ⊢
        omega)]
    unfold sendAll
    rw [List.foldl_cons]
    dsimp only
    rw [hs]
    dsimp only
    rw [List.append_nil]
    have := ih (q ++ encodeSub (ty, pl)) fs
      (by simp [encodeSub_length]; omega)
      (by
        simp only [List.length_append, encodeSub_length] at *
        omega)
    unfold sendAll at this
    rw [this, List.append_assoc]
    rfl

/-- C6 counterexample: for the empty sequence of enqueues (N = 0, total
serialized size 0), flushing the freshly opened queue emits no sealed frame at
all rather than exactly one. -/
theorem framer_batching_zero_counterexample :
    sendAll ks0 mac0 (List.replicate 32 7) 0 1 (List.range 16)
        (resetQ (List.range 16) 0 1, []) [] =
      (resetQ (List.range 16) 0 1, []) ∧
    flushQ ks0 mac0 (List.replicate 32 7) 0 1 (List.range 16)
        (resetQ (List.range 16) 0 1) = (resetQ (List.range 16) 0 1, []) := by
  constructor
  · rfl
  · decide

/-- C6 (amended to N at least 1): a sequence of N enqueues on one member
queue, each accepted and jointly fitting in one frame (28-byte header plus
total serialized size at most MAX_MESSAGE_LEN), emits no frame during the
enqueues and leaves the queue holding exactly the N length-prefixed
sub-messages in order; the subsequent flush emits exactly one sealed frame,
whose decrypted body is the sender id, recipient id and those N sub-messages. -/
theorem framer_batching (ksf : List Nat → List Nat → Nat → Nat)
    (macf : List Nat → List Nat → List Nat) (key iv iv2 : List Nat)
    (lid mid : Nat) (msgs : List (Nat × List Nat))
    (hiv : iv.length = 16) (hne : msgs ≠ [])
    (htot : totalSize msgs ≤ ZT_CLUSTER_MAX_MESSAGE_LENGTH - 28)
    (hmac : ∀ pk d, (macf pk d).length = 16) :
    sendAll ksf macf key lid mid iv2 (resetQ iv lid mid, []) msgs =
      (resetQ iv lid mid ++ encodeAll msgs, []) ∧
    flushQ ksf macf key lid mid iv2 (resetQ iv lid mid ++ encodeAll msgs) =
      (resetQ iv2 lid mid,
        [sealQ ksf macf key (resetQ iv lid mid ++ encodeAll msgs)]) ∧
    unsealFrame ksf macf key
        (sealQ ksf macf key (resetQ iv lid mid ++ encodeAll msgs)) =
      some (u16be lid ++ u16be mid ++ encodeAll msgs) := by
  have h3 := totalSize_pos msgs hne
  have hq : (resetQ iv lid mid).length = 28 := resetQ_length iv lid mid hiv
  refine ⟨?_, ?_, ?_⟩
  · exact sendAll_fits ksf macf key lid mid iv2 msgs (resetQ iv lid mid) []
      (by omega)
      (by
        simp only [ZT_CLUSTER_MAX_MESSAGE_LENGTH] at htot ⊢
        omega)
  · unfold flushQ
    rw [if_pos (by
      simp only [List.length_append, hq, encodeAll_length]
      omega)]
  · have hshape : resetQ iv lid mid ++ encodeAll msgs =
        iv ++ List.replicate 8 0 ++ (u16be lid ++ u16be mid ++ encodeAll msgs) := by
      simp [resetQ, List.append_assoc]
    rw [hshape]
    exact unseal_seal ksf macf key iv (List.replicate 8 0)
      (u16be lid ++ u16be mid ++ encodeAll msgs) hiv (by simp)
      (by
        simp only [List.length_append, u16be_length, encodeAll_length,
          ZT_CLUSTER_MAX_MESSAGE_LENGTH] at htot ⊢
        omega)
      hmac

/-- Witness for C6 (amended): two concrete sub-messages are batched into one
queue and flushed into a single sealed frame that unseals to the batched
body. -/
theorem framer_batching_witness :
    sendAll ks0 mac0 (List.replicate 32 7) 0 1 (List.range 16)
        (resetQ (List.range 16) 0 1, []) [(3, [1, 2, 3]), (2, [4])] =
      (resetQ (List.range 16) 0 1 ++ encodeAll [(3, [1, 2, 3]), (2, [4])], []) ∧
    flushQ ks0 mac0 (List.replicate 32 7) 0 1 (List.range 16)
        (resetQ (List.range 16) 0 1 ++ encodeAll [(3, [1, 2, 3]), (2, [4])]) =
      (resetQ (List.range 16) 0 1,
        [sealQ ks0 mac0 (List.replicate 32 7)
          (resetQ (List.range 16) 0 1 ++ encodeAll [(3, [1, 2, 3]), (2, [4])])]) ∧
    unsealFrame ks0 mac0 (List.replicate 32 7)
        (sealQ ks0 mac0 (List.replicate 32 7)
          (resetQ (List.range 16) 0 1 ++ encodeAll [(3, [1, 2, 3]), (2, [4])])) =
      some (u16be 0 ++ u16be 1 ++ encodeAll [(3, [1, 2, 3]), (2, [4])]) :=
  framer_batching ks0 mac0 (List.replicate 32 7) (List.range 16)
    (List.range 16) 0 1 [(3, [1, 2, 3]), (2, [4])] (by decide) (by decide)
    (by decide) (fun pk d => by simp [mac0])

/-! ## Claims C7 and C8 -/

theorem scan_result (s : Cluster) (now : Nat) (px py pz : Int) :
    ∀ (l : List Nat) (acc : Int × Nat × List InetAddress),
      List.foldl (scanStep s now px py pz) acc l = acc ∨
      ∃ M ∈ l, memberConsidered s now M ∧
        List.foldl (scanStep s now px py pz) acc l =
          (dist3dSq (s.members M).x (s.members M).y (s.members M).z px py pz,
            M, (s.members M).zeroTierPhysicalEndpoints) ∧
        dist3dSq (s.members M).x (s.members M).y (s.members M).z px py pz <
          acc.1 := by
  intro l
  induction l with
  | nil => exact fun acc => Or.inl rfl
  | cons m t ih =>
    intro acc
    rw [List.foldl_cons]
    by_cases hcon : memberConsidered s now m
    · by_cases hlt : dist3dSq (s.members m).x (s.members m).y (s.members m).z
          px py pz < acc.1
      · have hstep : scanStep s now px py pz acc m =
            (dist3dSq (s.members m).x (s.members m).y (s.members m).z px py pz,
              m, (s.members m).zeroTierPhysicalEndpoints) := by
          unfold scanStep
          rw [if_pos hcon, if_pos hlt]
        rw [hstep]
        rcases ih (dist3dSq (s.members m).x (s.members m).y (s.members m).z
            px py pz, m, (s.members m).zeroTierPhysicalEndpoints) with
          h | ⟨M, hM, hc, he, hd⟩
        · exact Or.inr ⟨m, List.mem_cons_self m t, hcon, h, hlt⟩
        · exact Or.inr ⟨M, List.mem_cons_of_mem m hM, hc, he, hd.trans hlt⟩
      · have hstep : scanStep s now px py pz acc m = acc := by
          unfold scanStep
          rw [if_pos hcon, if_neg hlt]
        rw [hstep]
        rcases ih acc with h | ⟨M, hM, hc, he, hd⟩
        · exact Or.inl h
        · exact Or.inr ⟨M, List.mem_cons_of_mem m hM, hc, he, hd⟩
    · have hstep : scanStep s now px py pz acc m = acc := by
        unfold scanStep
        rw [if_neg hcon]
      rw [hstep]
      rcases ih acc with h | ⟨M, hM, hc, he, hd⟩
      · exact Or.inl h
      · exact Or.inr ⟨M, List.mem_cons_of_mem m hM, hc, he, hd⟩

theorem scan_reaches (s : Cluster) (now : Nat) (px py pz : Int) :
    ∀ (l : List Nat) (acc : Int × Nat × List InetAddress),
      (acc.2.2 ≠ [] ∨ ∃ M ∈ l, memberConsidered s now M ∧
        dist3dSq (s.members M).x (s.members M).y (s.members M).z px py pz <
          acc.1) →
      (List.foldl (scanStep s now px py pz) acc l).2.2 ≠ [] := by
  intro l
  induction l with
  | nil =>
    intro acc h
    rcases h with h | ⟨M, hM, _, _⟩
    · exact h
    · cases hM
  | cons m t ih =>
    intro acc h
    rw [List.foldl_cons]
    by_cases hcon : memberConsidered s now m
    · by_cases hlt : dist3dSq (s.members m).x (s.members m).y (s.members m).z
          px py pz < acc.1
      · have hstep : scanStep s now px py pz acc m =
            (dist3dSq (s.members m).x (s.members m).y (s.members m).z px py pz,
              m, (s.members m).zeroTierPhysicalEndpoints) := by
          unfold scanStep
          rw [if_pos hcon, if_pos hlt]
        rw [hstep]
        exact ih _ (Or.inl hcon.2.2)
      · have hstep : scanStep s now px py pz acc m = acc := by
          unfold scanStep
          rw [if_pos hcon, if_neg hlt]
        rw [hstep]
        apply ih acc
        rcases h with h | ⟨M, hM, hc, hd⟩
        · exact Or.inl h
        · rcases List.mem_cons.mp hM with rfl | hMt
          · exact absurd hd hlt
          · exact Or.inr ⟨M, hMt, hc, hd⟩
    · have hstep : scanStep s now px py pz acc m = acc := by
        unfold scanStep
        rw [if_neg hcon]
      rw [hstep]
      apply ih acc
      rcases h with h | ⟨M, hM, hc, hd⟩
      · exact Or.inl h
      · rcases List.mem_cons.mp hM with rfl | hMt
        · exact absurd hc hcon
        · exact Or.inr ⟨M, hMt, hc, hd⟩

/-- C7: whenever Cluster::findBetterEndpoint returns an endpoint E, the peer
was geolocated to some point, E is one of the advertised endpoints of a member
that is considered (alive within ZT_CLUSTER_TIMEOUT, nonzero location, at
least one endpoint), that member is strictly closer to the point than the
baseline (our own distance, or 2^31 - squared to 2^62 here - when offloading),
and E has the address family of the peer physical address. -/
theorem findBetterEndpoint_sound (s : Cluster)
    (geoOracle : InetAddress → Option (Int × Int × Int)) (now pa : Nat)
    (phys : InetAddress) (offload : Bool) (E : InetAddress)
    (h : findBetterEndpoint s (some geoOracle) now pa phys offload = some E) :
    ∃ px py pz, geoOracle phys = some (px, py, pz) ∧
      ∃ M ∈ s.memberIds, memberConsidered s now M ∧
        E ∈ (s.members M).zeroTierPhysicalEndpoints ∧
        dist3dSq (s.members M).x (s.members M).y (s.members M).z px py pz <
          (if offload then 2 ^ 62 else dist3dSq s.x s.y s.z px py pz) ∧
        E.family = phys.family := by
  unfold findBetterEndpoint at h
  dsimp only at h
  cases hg : geoOracle phys with
  | none =>
    rw [hg] at h
    cases h
  | some p =>
    obtain ⟨px, py, pz⟩ := p
    rw [hg] at h
    dsimp only at h
    rcases scan_result s now px py pz s.memberIds
        ((if offload then 2 ^ 62 else dist3dSq s.x s.y s.z px py pz), s.id, [])
      with hr | ⟨M, hM, hc, he, hd⟩
    · rw [hr] at h
      cases h
    · rw [he] at h
      dsimp only at h
      refine ⟨px, py, pz, rfl, M, hM, hc, List.mem_of_find?_eq_some h, hd, ?_⟩
      have := List.find?_some h
      simpa using this

/-- Witness for C7: on a concrete cluster, with the peer geolocated at
(200,0,0) and contacting us over IPv6, findBetterEndpoint offloads to the IPv6
endpoint of live member 1 at (100,0,0), and the soundness facts hold. -/
theorem findBetterEndpoint_sound_witness :
    findBetterEndpoint clusGeo (some geoW) 1000 9 ⟨AF_INET6, [9, 9], 2⟩ true =
      some ⟨AF_INET6, [0, 0, 0, 0], 1⟩ ∧
    (∃ px py pz, geoW ⟨AF_INET6, [9, 9], 2⟩ = some (px, py, pz) ∧
      ∃ M ∈ clusGeo.memberIds, memberConsidered clusGeo 1000 M ∧
        (⟨AF_INET6, [0, 0, 0, 0], 1⟩ : InetAddress) ∈
          (clusGeo.members M).zeroTierPhysicalEndpoints ∧
        dist3dSq (clusGeo.members M).x (clusGeo.members M).y
            (clusGeo.members M).z px py pz <
          (if true then 2 ^ 62 else dist3dSq clusGeo.x clusGeo.y clusGeo.z
            px py pz) ∧
        (⟨AF_INET6, [0, 0, 0, 0], 1⟩ : InetAddress).family =
          (⟨AF_INET6, [9, 9], 2⟩ : InetAddress).family) :=
  ⟨by decide,
    findBetterEndpoint_sound clusGeo geoW 1000 9 ⟨AF_INET6, [9, 9], 2⟩ true
      ⟨AF_INET6, [0, 0, 0, 0], 1⟩ (by decide)⟩

/-- C8 counterexample: offload mode with a geolocated peer and a live,
located, endpoint-bearing member, yet no redirect happens, because the only
endpoint of the best member has a different address family (IPv6) than the
peer physical address (IPv4). -/
theorem findBetterEndpoint_offload_counterexample :
    memberConsidered clusGeo 1000 1 ∧ clusGeo.memberIds = [1] ∧
    geoW physW = some (200, 0, 0) ∧
    findBetterEndpoint clusGeo (some geoW) 1000 9 physW true = none := by
  refine ⟨by decide, rfl, rfl, by decide⟩

/-- C8 (amended): with offload set and the peer geolocated, if some considered
member lies strictly within distance 2^31 (squared: 2^62) of the peer point
and every such member advertises at least one endpoint in the address family
of the peer physical address, then findBetterEndpoint returns an endpoint. -/
theorem findBetterEndpoint_offload_complete (s : Cluster)
    (geoOracle : InetAddress → Option (Int × Int × Int)) (now pa : Nat)
    (phys : InetAddress) (px py pz : Int)
    (hg : geoOracle phys = some (px, py, pz))
    (hex : ∃ M ∈ s.memberIds, memberConsidered s now M ∧
      dist3dSq (s.members M).x (s.members M).y (s.members M).z px py pz <
        2 ^ 62)
    (hfam : ∀ M ∈ s.memberIds, memberConsidered s now M →
      dist3dSq (s.members M).x (s.members M).y (s.members M).z px py pz <
        2 ^ 62 →
      ∃ a ∈ (s.members M).zeroTierPhysicalEndpoints, a.family = phys.family) :
    ∃ E, findBetterEndpoint s (some geoOracle) now pa phys true = some E := by
  unfold findBetterEndpoint
  dsimp only
  rw [hg]
  dsimp only
  rw [if_pos rfl]
  rcases scan_result s now px py pz s.memberIds ((2 : Int) ^ 62, s.id, [])
    with hr | ⟨M, hM, hc, he, hd⟩
  · have hne := scan_reaches s now px py pz s.memberIds
      ((2 : Int) ^ 62, s.id, []) (Or.inr hex)
    rw [hr] at hne
    exact absurd rfl hne
  · rw [he]
    dsimp only
    obtain ⟨a, ham, hafam⟩ := hfam M hM hc hd
    have hsome : ((s.members M).zeroTierPhysicalEndpoints.find?
        (fun a => a.family == phys.family)).isSome :=
      List.find?_isSome.mpr ⟨a, ham, by simp [hafam]⟩
    exact Option.isSome_iff_exists.mp hsome

/-- Witness for C8 (amended): member 1 of the concrete cluster is within range
and advertises an IPv6 endpoint matching the IPv6 peer, so an endpoint is
returned. -/
theorem findBetterEndpoint_offload_complete_witness :
    ∃ E, findBetterEndpoint clusGeo (some geoW) 1000 9 ⟨AF_INET6, [9, 9], 2⟩
      true = some E :=
  findBetterEndpoint_offload_complete clusGeo geoW 1000 9 ⟨AF_INET6, [9, 9], 2⟩
    200 0 0 (by decide) ⟨1, by decide, by decide, by decide⟩
    (by
      intro M hM _ _
      refine ⟨⟨AF_INET6, [0, 0, 0, 0], 1⟩, ?_, by decide⟩
      have : M = 1 := by
        cases List.mem_cons.mp hM with
        | inl h => exact h
        | inr h => cases h
      rw [this]
      decide)

/-! ## Claim C9 -/

theorem usub64_window (a b k : Nat) (ha : a < 2 ^ 64) (hb : b < 2 ^ 64)
    (h : usub64 a b < k) : ¬(b < a - k) := by
  unfold usub64 at h
  omega

/-- C9: after the periodic sweep branch of Cluster::doPeriodicTasks runs at
node time now (triggered when five peer-activity timeouts have passed since
the last sweep), no remaining affinity entry has a timestamp older than
now - 5 x ZT_PEER_ACTIVITY_TIMEOUT, every entry younger than that is kept, and
the sweep time is recorded. -/
theorem affinity_gc (s : Cluster) (now : Nat)
    (hnow : now < 2 ^ 64)
    (hts : ∀ e ∈ s.peerAffinities, (e : Nat × PA).2.ts < 2 ^ 64)
    (hlast : s.lastCleanedPeerAffinities ≤ now)
    (htrig : now - s.lastCleanedPeerAffinities ≥ ZT_PEER_ACTIVITY_TIMEOUT * 5) :
    (∀ e ∈ (doPeriodicTasksGC s now).peerAffinities,
      ¬((e : Nat × PA).2.ts < now - ZT_PEER_ACTIVITY_TIMEOUT * 5)) ∧
    (∀ e ∈ s.peerAffinities, (e : Nat × PA).2.ts ≤ now →
      now - (e : Nat × PA).2.ts < ZT_PEER_ACTIVITY_TIMEOUT * 5 →
      e ∈ (doPeriodicTasksGC s now).peerAffinities) ∧
    (doPeriodicTasksGC s now).lastCleanedPeerAffinities = now := by
  have htrig2 : usub64 now s.lastCleanedPeerAffinities ≥
      ZT_PEER_ACTIVITY_TIMEOUT * 5 := by
    rw [usub64_eq_sub now s.lastCleanedPeerAffinities hlast hnow]
    exact htrig
  unfold doPeriodicTasksGC
  rw [if_pos htrig2]
  dsimp only
  refine ⟨?_, ?_, rfl⟩
  · intro e he
    obtain ⟨hmem, hp⟩ := List.mem_filter.mp he
    exact usub64_window now e.2.ts (ZT_PEER_ACTIVITY_TIMEOUT * 5) hnow
      (hts e hmem) (of_decide_eq_true hp)
  · intro e he h1 h2
    refine List.mem_filter.mpr ⟨he, decide_eq_true ?_⟩
    rw [usub64_eq_sub now e.2.ts h1 hnow]
    exact h2

/-- Witness for C9: sweeping a concrete map at time 2000000 keeps the fresh
entry, and the remaining entries all satisfy the age bound. -/
theorem affinity_gc_witness :
    (∀ e ∈ (doPeriodicTasksGC clusGC 2000000).peerAffinities,
      ¬((e : Nat × PA).2.ts < 2000000 - ZT_PEER_ACTIVITY_TIMEOUT * 5)) ∧
    (∀ e ∈ clusGC.peerAffinities, (e : Nat × PA).2.ts ≤ 2000000 →
      2000000 - (e : Nat × PA).2.ts < ZT_PEER_ACTIVITY_TIMEOUT * 5 →
      e ∈ (doPeriodicTasksGC clusGC 2000000).peerAffinities) ∧
    (doPeriodicTasksGC clusGC 2000000).lastCleanedPeerAffinities = 2000000 :=
  affinity_gc clusGC 2000000 (by decide) (by decide) (by decide) (by decide)

end ZTCluster
